import Mathlib

/-!
# Verification of the mailroom event-application engine

Shallow embedding of the mailroom repository's group-membership modifier,
hook pipeline, outgoing-message creation, contact import, location lookup,
resthook loading, topup loading and panic-recovery middleware, together
with proofs of the specified properties.
-/

set_option maxHeartbeats 1000000

namespace Mailroom

/-! ## Groups modifier
Embedded from `vendor/github.com/nyaruka/goflow/flows/actions/modifiers/groups.go`.
A flow group is identified by its UUID; a contact's group membership is the
ordered list of groups it belongs to. -/

structure Group where
  uuid : String
deriving DecidableEq, Repr

/-- `GroupList.FindByUUID`: returns the first group in the list with the given
UUID, or nothing when the contact has no such group. -/
def findByUUID (gs : List Group) (u : String) : Option Group :=
  gs.find? (fun g => g.uuid == u)

/-- `GroupList.Add`: appends the group to the contact's group list. -/
def groupListAdd (gs : List Group) (g : Group) : List Group :=
  gs ++ [g]

/-- `GroupList.Remove`: removes any group with the given group's UUID from the
contact's group list. -/
def groupListRemove (gs : List Group) (g : Group) : List Group :=
  gs.filter (fun x => x.uuid != g.uuid)

/-- The two supported kinds of modification (`GroupsAdd`, `GroupsRemove`). -/
inductive GroupsModification where
  | add
  | remove
deriving DecidableEq, Repr

/-- The flow events logged by the modifier; `contactGroupsChanged` carries the
groups added and the groups removed. -/
inductive FlowEvent where
  | contactGroupsChanged (added : List Group) (removed : List Group)
deriving DecidableEq, Repr

/-- `GroupsModifier` with its target groups and modification kind. -/
structure GroupsModifier where
  groups : List Group
  modification : GroupsModification
deriving DecidableEq, Repr

/-- The `GroupsAdd` loop of `GroupsModifier.Apply`: walks the modifier's
groups in order; a group already present (by UUID) is skipped, otherwise it is
appended to the contact's groups and to the diff. Returns the new contact
groups and the diff. -/
def applyAddLoop : List Group → List Group → List Group × List Group
  | [], cgs => (cgs, [])
  | g :: rest, cgs =>
    if (findByUUID cgs g.uuid).isSome then
      applyAddLoop rest cgs
    else
      let r := applyAddLoop rest (groupListAdd cgs g)
      (r.1, g :: r.2)

/-- The `GroupsRemove` loop of `GroupsModifier.Apply`: walks the modifier's
groups in order; a group the contact is not in (by UUID) is skipped, otherwise
it is removed from the contact's groups and appended to the diff. -/
def applyRemoveLoop : List Group → List Group → List Group × List Group
  | [], cgs => (cgs, [])
  | g :: rest, cgs =>
    if (findByUUID cgs g.uuid).isSome then
      let r := applyRemoveLoop rest (groupListRemove cgs g)
      (r.1, g :: r.2)
    else
      applyRemoveLoop rest cgs

/-- `GroupsModifier.Apply`: applies the modification to the contact's groups
and returns the new group list together with the logged events; an event is
logged only when the diff is non-empty. -/
def GroupsModifier.apply (m : GroupsModifier) (cgs : List Group) :
    List Group × List FlowEvent :=
  match m.modification with
  | .add =>
    let r := applyAddLoop m.groups cgs
    (r.1, if r.2.length > 0 then [.contactGroupsChanged r.2 []] else [])
  | .remove =>
    let r := applyRemoveLoop m.groups cgs
    (r.1, if r.2.length > 0 then [.contactGroupsChanged [] r.2] else [])

/-! ## Hook pipeline
The hook accumulation of `Apply` (spec §4.2) is not among the sources; it is
modelled from the spec below. -/

/-- Modelled from the spec: the deduplication key of a hook, `(kind, scope-key)`. -/
structure HookKey where
  kind : String
  scope : String
deriving DecidableEq, Repr

/-- The hook kind for group-membership-changed events. -/
def groupMembershipChangedKind : String := "group_membership_changed"

/-- Modelled from the spec: the kind's registered payload merge function; the
default replaces the payload, while additive kinds such as
group-membership-changed union the payloads. Payloads here are lists of group
names carried by group-membership hooks. -/
def mergePayload (kind : String) (oldP newP : List String) : List String :=
  if kind == groupMembershipChangedKind then
    oldP ++ newP.filter (fun g => !(oldP.contains g))
  else newP

/-- The flow-engine events relevant to group membership: a group-add event for
one contact targeting a set of groups. -/
inductive PipelineEvent where
  | groupsAdded (contactID : Nat) (gs : List String)
deriving DecidableEq, Repr

/-- Modelled from the spec: the hook produced for one event; a group-add event
for a contact yields a group-membership-changed hook scoped to that contact. -/
def eventHook : PipelineEvent → HookKey × List String
  | .groupsAdded c gs => (⟨groupMembershipChangedKind, "contact-" ++ toString c⟩, gs)

/-- Modelled from the spec: insertion of one hook into the accumulated ordered
map; a repeated `(kind, scope-key)` merges payloads via the kind's merge
function (the merge counter increments), a fresh key is appended in first-seen
order. -/
def insertHook (st : List (HookKey × List String) × Nat) (h : HookKey × List String) :
    List (HookKey × List String) × Nat :=
  if st.1.any (fun e => e.1 == h.1) then
    (st.1.map (fun e => if e.1 == h.1 then (e.1, mergePayload e.1.kind e.2 h.2) else e),
     st.2 + 1)
  else (st.1 ++ [h], st.2)

/-- Modelled from the spec: hook accumulation over one `Apply` call's event
sequence, returning the deduplicated hooks in first-seen key order together
with the number of payload merges performed. -/
def accumulateHooks (events : List PipelineEvent) : List (HookKey × List String) × Nat :=
  events.foldl (fun st e => insertHook st (eventHook e)) ([], 0)

/-! ## Outgoing message creation
`CreateOutgoingMsg` of the models package is not among the sources (only its
test is); it is modelled from the spec below. -/

/-- An attachment, split into its media-type part and its URL as by
`flows.Attachment.ContentType` / `flows.Attachment.URL`. -/
structure Attachment where
  contentType : String
  url : String
deriving DecidableEq, Repr

/-- A URL is relative when it starts with a slash. -/
def isRelativeURL (s : String) : Bool :=
  s.data.head? == some '/'

/-- Modelled from the spec: materialization of an attachment reference on an
outgoing message (the msg-created handling is not among the sources): an
attachment with a relative path is made fully qualified with `https://` and
the organization's configured attachment domain, preserving the media-type
part; an already-absolute URL is kept as is. -/
def normalizeAttachment (domain : String) (a : Attachment) : Attachment :=
  if isRelativeURL a.url then ⟨a.contentType, "https://" ++ domain ++ a.url⟩ else a

/-- JSON escaping of one character (quote and backslash). -/
def jsonEscapeChar (c : Char) : List Char :=
  if c = '"' ∨ c = '\\' then ['\\', c] else [c]

/-- Minimal JSON string serialization used for message metadata. -/
def jsonStr (s : String) : String :=
  "\"" ++ String.mk (s.data.flatMap jsonEscapeChar) ++ "\""

/-- Modelled from the spec: the JSON metadata serialized for a quick-reply
list, as in the persisted form `\x7b"quick_replies":["yes","no"]\x7d`. -/
def serializeQuickReplies (qrs : List String) : String :=
  "\x7b\"quick_replies\":[" ++ String.intercalate "," (qrs.map jsonStr) ++ "]\x7d"

/-- The fields of `flows.MsgOut` the creation path reads: the contact-URN id
carried on the URN (`?id=NN`, absent when the URN is not resolvable), text,
attachments and quick replies. -/
structure MsgOut where
  urnID : Option Nat
  text : String
  attachments : List Attachment
  quickReplies : List String
deriving DecidableEq, Repr

/-- An organization as the creation path sees it; `noTopupPolicy` is the
spec's explicit no-topup policy under which creation may succeed without an
active topup. -/
structure Org where
  id : Nat
  isActive : Bool
  noTopupPolicy : Bool
  attachmentDomain : String
deriving DecidableEq, Repr

/-- The persisted outgoing message row. -/
structure Msg where
  orgID : Nat
  channelID : Nat
  contactID : Nat
  contactURNID : Nat
  text : String
  attachments : List Attachment
  metadata : Option String
  topupID : Option Nat
deriving DecidableEq, Repr

/-- The persisted row of a successful creation: text copied verbatim,
attachments materialized against the organization's attachment domain, JSON
metadata populated only when quick replies exist, and the given topup
reference recorded. -/
def mkOutgoingMsg (org : Org) (channelID contactID urnID : Nat) (m : MsgOut)
    (topupID : Option Nat) : Msg :=
  { orgID := org.id
    channelID := channelID
    contactID := contactID
    contactURNID := urnID
    text := m.text
    attachments := m.attachments.map (normalizeAttachment org.attachmentDomain)
    metadata :=
      if m.quickReplies.isEmpty then none
      else some (serializeQuickReplies m.quickReplies)
    topupID := topupID }

/-- Modelled from the spec: `CreateOutgoingMsg` — creation fails when the
contact's URN carries no resolvable contact-URN id, and succeeds only inside
an active organization that has an active topup or the explicit no-topup
policy; on success the message records the active topup when one exists, and
a null topup reference under the no-topup policy. -/
def CreateOutgoingMsg (org : Org) (activeTopup : Option Nat) (channelID : Nat)
    (contactID : Nat) (m : MsgOut) : Except String Msg :=
  match m.urnID, org.isActive, activeTopup, org.noTopupPolicy with
  | none, _, _, _ => .error "cannot create msg for URN without a contact URN id"
  | some _, false, _, _ => .error "org is not active"
  | some _, true, none, false => .error "org has no active topup"
  | some urnID, true, some tid, _ =>
    .ok (mkOutgoingMsg org channelID contactID urnID m (some tid))
  | some urnID, true, none, true =>
    .ok (mkOutgoingMsg org channelID contactID urnID m none)

/-- Sample organization used by the witnesses (org 1 of the test fixture,
with the configured attachment domain of the msg-created test and no
no-topup policy). -/
def sampleOrg : Org := ⟨1, true, false, "foo.bar.com"⟩

/-- An active organization under the explicit no-topup policy. -/
def noTopupPolicyOrg : Org := ⟨1, true, true, "foo.bar.com"⟩

/-- Outgoing flow message without quick replies, used for the
no-topup-policy creation. -/
def plainMsgOut : MsgOut := ⟨some 42, "test outgoing", [], []⟩

/-- The message created for `plainMsgOut` under the no-topup policy: its
topup reference is null. -/
def noTopupMsg : Msg := ⟨1, 2, 42, 42, "test outgoing", [], none, none⟩

/-- Sample outgoing flow message with two quick replies. -/
def sampleMsgOut : MsgOut := ⟨some 42, "test outgoing", [], ["yes", "no"]⟩

/-- The message `CreateOutgoingMsg` persists for `sampleMsgOut`. -/
def sampleMsg : Msg :=
  ⟨1, 2, 42, 42, "test outgoing", [], some (serializeQuickReplies ["yes", "no"]), some 1⟩

/-- Sample outgoing flow message whose URN carries no contact-URN id. -/
def sampleNoURNMsgOut : MsgOut := ⟨none, "missing urn id", [], []⟩

/-! ## Contact import
The `ImportContactBatch` task handler is not among the sources (only its
test is); it is modelled from the spec below. -/

/-- One raw contact specification of an import batch: name, optional
language, URN list. -/
structure ContactSpec where
  name : Option String
  language : Option String
  urns : List String
deriving DecidableEq, Repr

/-- A contact row as the import sees it. -/
structure Contact where
  name : Option String
  language : Option String
  urns : List String
deriving DecidableEq, Repr

/-- Modelled from the spec: applying an import row's name and language to a
resolved contact; absent fields leave the contact untouched. -/
def applySpec (c : Contact) (s : ContactSpec) : Contact :=
  { c with
    name := if s.name.isSome then s.name else c.name
    language := if s.language.isSome then s.language else c.language }

/-- Modelled from the spec: one row of the import — resolve the contact by
URN (the first contact sharing one of the row's URNs), apply name/language to
it when found, create it otherwise; a row without URNs is a per-row error
that does not abort the batch. Returns the new contact table and whether the
row succeeded. -/
def importRow (db : List Contact) (s : ContactSpec) : List Contact × Bool :=
  if s.urns.isEmpty then (db, false)
  else
    match db.find? (fun c => c.urns.any (fun u => s.urns.contains u)) with
    | some c => (db.map (fun c2 => if c2 == c then applySpec c2 s else c2), true)
    | none => (db ++ [⟨s.name, s.language, s.urns⟩], true)

/-- Modelled from the spec: `ImportContactBatch` — processes the batch's rows
in order, accumulating per-row successes and failures without aborting the
whole batch, and reports the summary `(successes, failures)` when marking the
batch complete. -/
def ImportContactBatch (db : List Contact) (specs : List ContactSpec) :
    List Contact × Nat × Nat :=
  specs.foldl
    (fun st s =>
      let r := importRow st.1 s
      (r.1, if r.2 then st.2.1 + 1 else st.2.1, if r.2 then st.2.2 else st.2.2 + 1))
    (db, 0, 0)

/-- The first row of the import-batch scenario. -/
def norbertSpec : ContactSpec := ⟨some "Norbert", some "eng", ["tel:+16055740001"]⟩

/-- The second row of the import-batch scenario. -/
def leahSpec : ContactSpec := ⟨some "Leah", none, ["tel:+16055740002"]⟩

/-! ## Locations
The location tree and `FindByName` live in the goflow utils package, not
among the sources (only the loading test is); they are modelled from the
spec below. Aliases are loaded per organization, so they are looked up here
against the loading organization's alias rows. -/

/-- A boundary-alias row: the aliasing organization, the aliased boundary and
the alias itself. -/
structure BoundaryAlias where
  orgID : Nat
  boundaryID : Nat
  name : String
deriving DecidableEq, Repr

/-- A node of the location tree: name, boundary id and children; the country
root sits at level 0, each child one level deeper. -/
inductive Location where
  | node (name : String) (boundaryID : Nat) (children : List Location)

/-- The name of a location node. -/
def Location.name : Location → String
  | .node n _ _ => n

/-- The boundary id of a location node. -/
def Location.boundaryID : Location → Nat
  | .node _ b _ => b

/-- The children of a location node. -/
def Location.children : Location → List Location
  | .node _ _ cs => cs

/-- ASCII lowercasing of one character. -/
def lowerChar (c : Char) : Char :=
  if 'A' ≤ c ∧ c ≤ 'Z' then Char.ofNat (c.toNat + 32) else c

/-- ASCII lowercasing of a string, used for the case-insensitive exact
matching of location lookups. -/
def lowerStr (s : String) : String :=
  String.mk (s.data.map lowerChar)

/-- Modelled from the spec: the aliases of a boundary as loaded for one
organization — only alias rows of that organization attach to the tree. -/
def aliasesFor (rows : List BoundaryAlias) (orgID boundaryID : Nat) : List String :=
  (rows.filter (fun r => r.orgID == orgID && r.boundaryID == boundaryID)).map
    (fun r => r.name)

/-- Modelled from the spec: a location matches a query when its name or one
of its organization-scoped aliases equals the query case-insensitively. -/
def locationMatches (rows : List BoundaryAlias) (orgID : Nat) (q : String)
    (l : Location) : Bool :=
  lowerStr l.name == lowerStr q ||
    (aliasesFor rows orgID l.boundaryID).any (fun a => lowerStr a == lowerStr q)

/-- The nodes of the subtree rooted at `l` lying `d` levels below `l`. -/
def nodesAtDepth : Location → Nat → List Location
  | l, 0 => [l]
  | l, d + 1 => l.children.flatMap (fun c => nodesAtDepth c d)

/-- Modelled from the spec: `FindByName` — a name lookup at absolute level
`level`, scoped to a parent node at level `parentLevel`: the nodes of the
parent's subtree at that level whose name or one of whose
organization-scoped aliases matches the query case-insensitively. -/
def FindByName (rows : List BoundaryAlias) (orgID : Nat) (parent : Location)
    (parentLevel level : Nat) (q : String) : List Location :=
  if level < parentLevel then []
  else (nodesAtDepth parent (level - parentLevel)).filter
    (locationMatches rows orgID q)

/-- The Sokoto node of the location-test fixture. -/
def sokotoLoc : Location := .node "Sokoto" 2 []

/-- The Nigeria subtree of the location-test fixture. -/
def nigeriaLoc : Location := .node "Nigeria" 1 [sokotoLoc, .node "Zamfara" 3 []]

/-- The alias rows of the location-test fixture: "Soko" for org 1 and
"Sokoz" for org 2, both on boundary 2 (Sokoto). -/
def sampleAliasRows : List BoundaryAlias := [⟨1, 2, "Soko"⟩, ⟨2, 2, "Sokoz"⟩]

/-! ## Resthooks
`loadResthooks` of the models package is not among the sources (only its
test is); the subscriber set it loads is modelled from the spec below. -/

/-- Lexicographic strict order on character lists. -/
def lexLt : List Char → List Char → Bool
  | [], [] => false
  | [], _ :: _ => true
  | _ :: _, [] => false
  | a :: as, b :: bs => if a < b then true else if b < a then false else lexLt as bs

/-- Strict URL order: lexicographic on the string's characters. -/
def strLt (a b : String) : Bool :=
  lexLt a.data b.data

/-- Inserting a URL into a sorted, deduplicated URL list: keeps the order and
drops the URL when it is already present. -/
def insertURL (u : String) : List String → List String
  | [] => [u]
  | v :: rest =>
    if strLt u v then u :: v :: rest
    else if strLt v u then v :: insertURL u rest
    else v :: rest

/-- Modelled from the spec: the subscriber set of one resthook as loaded by
the asset store — the target URLs of the resthook's subscriber rows,
deduplicated and ordered by URL; a resthook with no subscriber rows gets the
empty set. -/
def loadResthookSubscribers (rows : List (Nat × String)) (rid : Nat) : List String :=
  ((rows.filter (fun r => r.1 == rid)).map (fun r => r.2)).foldr insertURL []

/-- The subscriber rows of the resthook test fixture (both on resthook 2). -/
def sampleSubscriberRows : List (Nat × String) :=
  [(2, "https://foo.bar"), (2, "https://bar.foo")]

/-! ## Topups
`loadActiveTopup` of the models package is not among the sources (only its
test is); it is modelled from the spec below. -/

/-- A topup row: id, owning organization, purchased credits, used credits. -/
structure Topup where
  id : Nat
  orgID : Nat
  credits : Nat
  used : Nat
deriving DecidableEq, Repr

/-- Modelled from the spec: `loadActiveTopup` — returns, without error, the
id of the organization's first topup that still has remaining credits, or a
null id when the organization has none; an exhausted topup never makes the
load fail. -/
def loadActiveTopup (topups : List Topup) (orgID : Nat) :
    Except String (Option Nat) :=
  .ok ((topups.find? (fun t => t.orgID == orgID && decide (t.used < t.credits))).map
    (fun t => t.id))

/-- The topup rows of the topup test fixture: org 1 and org 2 hold credits,
org 3's only topup is exhausted. -/
def sampleTopups : List Topup :=
  [⟨1, 1, 1000, 500⟩, ⟨2, 2, 1000, 0⟩, ⟨3, 3, 1000000, 1000000⟩]

/-! ## Panic-recovery middleware
Embedded from the web package's `panicRecovery`: the handler either returns a
response normally or panics; the middleware recovers a panic into an HTTP 500
response and passes normal responses through. -/

/-- An HTTP response: status code and body. -/
structure Response where
  status : Nat
  body : String
deriving DecidableEq, Repr

/-- `http.StatusText` for the status code the middleware uses. -/
def statusText (code : Nat) : String :=
  if code == 500 then "Internal Server Error" else ""

/-- The outcome of running a handler on one request: a normal response, or a
panic carrying the panic value's text. -/
inductive HandlerOutcome where
  | ok (resp : Response)
  | panicked (msg : String)
deriving DecidableEq, Repr

/-- `panicRecovery`: serves the request with the next handler; when the
handler panics it recovers and responds 500 with the 500 status text,
otherwise the handler's response passes through unchanged. -/
def panicRecovery {α : Type} (next : α → HandlerOutcome) (r : α) : Response :=
  match next r with
  | .ok resp => resp
  | .panicked _ => ⟨500, statusText 500⟩

/-- A handler that always panics. -/
def panickingHandler : Nat → HandlerOutcome :=
  fun _ => .panicked "boom"

/-- A handler that responds normally. -/
def okHandler : Nat → HandlerOutcome :=
  fun _ => .ok ⟨200, "ok"⟩

/-! ## Sanity checks and theorems -/

example :
    (GroupsModifier.mk [⟨"a"⟩, ⟨"b"⟩] .add).apply [⟨"a"⟩] =
      ([⟨"a"⟩, ⟨"b"⟩], [.contactGroupsChanged [⟨"b"⟩] []]) := by decide

example :
    (GroupsModifier.mk [⟨"a"⟩, ⟨"b"⟩] .remove).apply [⟨"a"⟩] =
      ([], [.contactGroupsChanged [] [⟨"a"⟩]]) := by decide

/-! Lemmas about the add loop. -/

theorem findByUUID_append_of_isSome {gs : List Group} {u : String}
    (h : (findByUUID gs u).isSome) (gs' : List Group) :
    (findByUUID (gs ++ gs') u).isSome := by
  induction gs with
  | nil => simp [findByUUID] at h
  | cons g rest ih =>
    by_cases hg : g.uuid == u
    · simp [findByUUID, List.find?, hg]
    · simp only [findByUUID, List.find?, hg] at h ⊢
      exact ih h

theorem findByUUID_eq_none_of_append {gs gs' : List Group} {u : String}
    (h : findByUUID (gs ++ gs') u = none) : findByUUID gs u = none := by
  induction gs with
  | nil => simp [findByUUID]
  | cons g rest ih =>
    by_cases hg : g.uuid == u
    · simp [findByUUID, List.find?, hg] at h
    · simp only [findByUUID, List.find?, hg] at h ⊢
      exact ih h

/-- The add loop only ever appends: the resulting contact groups are the
original ones followed by the diff. -/
theorem applyAddLoop_eq_append (gs cgs : List Group) :
    (applyAddLoop gs cgs).1 = cgs ++ (applyAddLoop gs cgs).2 := by
  induction gs generalizing cgs with
  | nil => simp [applyAddLoop]
  | cons g rest ih =>
    by_cases h : (findByUUID cgs g.uuid).isSome
    · simp only [applyAddLoop, h, if_pos]
      exact ih cgs
    · simp only [applyAddLoop, h, if_neg, Bool.false_eq_true, not_false_iff, groupListAdd]
      rw [ih (cgs ++ [g])]
      simp

/-- Membership by UUID is preserved by the add loop. -/
theorem applyAddLoop_preserves (gs cgs : List Group) {u : String}
    (h : (findByUUID cgs u).isSome) :
    (findByUUID (applyAddLoop gs cgs).1 u).isSome := by
  induction gs generalizing cgs with
  | nil => exact h
  | cons g rest ih =>
    by_cases hg : (findByUUID cgs g.uuid).isSome
    · simp only [applyAddLoop, hg, if_pos]
      exact ih cgs h
    · simp only [applyAddLoop, hg, if_neg, Bool.false_eq_true, not_false_iff]
      exact ih (groupListAdd cgs g) (findByUUID_append_of_isSome h [g])

/-- After the add loop, every group of the modifier is a member by UUID. -/
theorem applyAddLoop_mem_after (gs cgs : List Group) :
    ∀ g ∈ gs, (findByUUID (applyAddLoop gs cgs).1 g.uuid).isSome := by
  induction gs generalizing cgs with
  | nil => intro g hg; simp at hg
  | cons g rest ih =>
    intro g' hg'
    rcases List.mem_cons.mp hg' with rfl | hmem
    · by_cases h : (findByUUID cgs g'.uuid).isSome
      · simp only [applyAddLoop, h, if_pos]
        exact applyAddLoop_preserves rest cgs h
      · simp only [applyAddLoop, h, if_neg, Bool.false_eq_true, not_false_iff]
        refine applyAddLoop_preserves rest (groupListAdd cgs g') ?_
        simp [groupListAdd, findByUUID, List.find?_append]
    · by_cases h : (findByUUID cgs g.uuid).isSome
      · simp only [applyAddLoop, h, if_pos]
        exact ih cgs g' hmem
      · simp only [applyAddLoop, h, if_neg, Bool.false_eq_true, not_false_iff]
        exact ih (groupListAdd cgs g) g' hmem

/-- Every group in the add-loop diff was not a member before the call. -/
theorem applyAddLoop_diff_new (gs cgs : List Group) :
    ∀ g ∈ (applyAddLoop gs cgs).2, findByUUID cgs g.uuid = none := by
  induction gs generalizing cgs with
  | nil => intro g hg; simp [applyAddLoop] at hg
  | cons g rest ih =>
    intro g' hg'
    by_cases h : (findByUUID cgs g.uuid).isSome
    · simp only [applyAddLoop, h, if_pos] at hg'
      exact ih cgs g' hg'
    · simp only [applyAddLoop, h, if_neg, Bool.false_eq_true, not_false_iff] at hg'
      rcases List.mem_cons.mp hg' with rfl | hmem
      · exact Option.not_isSome_iff_eq_none.mp h
      · have := ih (groupListAdd cgs g) g' hmem
        exact @findByUUID_eq_none_of_append cgs [g] g'.uuid this

/-- When every group of the modifier is already a member, the add loop is a
no-op with an empty diff. -/
theorem applyAddLoop_noop (gs cgs : List Group)
    (h : ∀ g ∈ gs, (findByUUID cgs g.uuid).isSome) :
    applyAddLoop gs cgs = (cgs, []) := by
  induction gs with
  | nil => simp [applyAddLoop]
  | cons g rest ih =>
    have hg := h g (List.mem_cons_self g rest)
    simp only [applyAddLoop, hg, if_pos]
    exact ih (fun g' hg' => h g' (List.mem_cons_of_mem g hg'))

/-- The add-loop diff is drawn from the modifier's groups. -/
theorem applyAddLoop_diff_sub (gs cgs : List Group) :
    ∀ g ∈ (applyAddLoop gs cgs).2, g ∈ gs := by
  induction gs generalizing cgs with
  | nil => intro g hg; simp [applyAddLoop] at hg
  | cons g rest ih =>
    intro g' hg'
    by_cases h : (findByUUID cgs g.uuid).isSome
    · simp only [applyAddLoop, h, if_pos] at hg'
      exact List.mem_cons_of_mem g (ih cgs g' hg')
    · simp only [applyAddLoop, h, if_neg, Bool.false_eq_true, not_false_iff] at hg'
      rcases List.mem_cons.mp hg' with rfl | hmem
      · exact List.mem_cons_self _ _
      · exact List.mem_cons_of_mem g (ih (groupListAdd cgs g) g' hmem)

/-! Lemmas about the remove loop. -/

theorem findByUUID_groupListRemove_none {cgs : List Group} {u : String}
    (h : findByUUID cgs u = none) (g : Group) :
    findByUUID (groupListRemove cgs g) u = none := by
  rw [findByUUID, List.find?_eq_none] at h ⊢
  intro x hx
  exact h x (List.mem_of_mem_filter hx)

theorem findByUUID_groupListRemove_self (cgs : List Group) (g : Group) :
    findByUUID (groupListRemove cgs g) g.uuid = none := by
  rw [findByUUID, List.find?_eq_none]
  intro x hx
  have := List.of_mem_filter hx
  simp only [bne_iff_ne, ne_eq] at this
  simp [this]

/-- Absence by UUID is preserved by the remove loop. -/
theorem applyRemoveLoop_preserves_none (gs cgs : List Group) {u : String}
    (h : findByUUID cgs u = none) :
    findByUUID (applyRemoveLoop gs cgs).1 u = none := by
  induction gs generalizing cgs with
  | nil => exact h
  | cons g rest ih =>
    by_cases hg : (findByUUID cgs g.uuid).isSome
    · simp only [applyRemoveLoop, hg, if_pos]
      exact ih (groupListRemove cgs g) (findByUUID_groupListRemove_none h g)
    · simp only [applyRemoveLoop, hg, if_neg, Bool.false_eq_true, not_false_iff]
      exact ih cgs h

/-- After the remove loop, none of the modifier's groups is a member. -/
theorem applyRemoveLoop_mem_after (gs cgs : List Group) :
    ∀ g ∈ gs, findByUUID (applyRemoveLoop gs cgs).1 g.uuid = none := by
  induction gs generalizing cgs with
  | nil => intro g hg; simp at hg
  | cons g rest ih =>
    intro g' hg'
    rcases List.mem_cons.mp hg' with rfl | hmem
    · by_cases h : (findByUUID cgs g'.uuid).isSome
      · simp only [applyRemoveLoop, h, if_pos]
        exact applyRemoveLoop_preserves_none rest (groupListRemove cgs g')
          (findByUUID_groupListRemove_self cgs g')
      · simp only [applyRemoveLoop, h, if_neg, Bool.false_eq_true, not_false_iff]
        exact applyRemoveLoop_preserves_none rest cgs
          (Option.not_isSome_iff_eq_none.mp h)
    · by_cases h : (findByUUID cgs g.uuid).isSome
      · simp only [applyRemoveLoop, h, if_pos]
        exact ih (groupListRemove cgs g) g' hmem
      · simp only [applyRemoveLoop, h, if_neg, Bool.false_eq_true, not_false_iff]
        exact ih cgs g' hmem

/-- Every group in the remove-loop diff is one of the modifier's groups. -/
theorem applyRemoveLoop_diff_sub (gs cgs : List Group) :
    ∀ g ∈ (applyRemoveLoop gs cgs).2, g ∈ gs := by
  induction gs generalizing cgs with
  | nil => intro g hg; simp [applyRemoveLoop] at hg
  | cons g rest ih =>
    intro g' hg'
    by_cases h : (findByUUID cgs g.uuid).isSome
    · simp only [applyRemoveLoop, h, if_pos] at hg'
      rcases List.mem_cons.mp hg' with rfl | hmem
      · exact List.mem_cons_self _ _
      · exact List.mem_cons_of_mem g (ih (groupListRemove cgs g) g' hmem)
    · simp only [applyRemoveLoop, h, if_neg, Bool.false_eq_true, not_false_iff] at hg'
      exact List.mem_cons_of_mem g (ih cgs g' hg')

/-- When none of the modifier's groups is a member, the remove loop is a
no-op with an empty diff. -/
theorem applyRemoveLoop_noop (gs cgs : List Group)
    (h : ∀ g ∈ gs, findByUUID cgs g.uuid = none) :
    applyRemoveLoop gs cgs = (cgs, []) := by
  induction gs with
  | nil => simp [applyRemoveLoop]
  | cons g rest ih =>
    have hg : ¬ (findByUUID cgs g.uuid).isSome := by
      simp [h g (List.mem_cons_self g rest)]
    simp only [applyRemoveLoop, hg, if_neg, Bool.false_eq_true, not_false_iff]
    exact ih (fun g' hg' => h g' (List.mem_cons_of_mem g hg'))

/-- The remove loop never grows the contact's groups, and strictly shrinks
them whenever its diff is non-empty. -/
theorem applyRemoveLoop_length_le (gs cgs : List Group) :
    (applyRemoveLoop gs cgs).1.length ≤ cgs.length := by
  induction gs generalizing cgs with
  | nil => simp [applyRemoveLoop]
  | cons g rest ih =>
    by_cases h : (findByUUID cgs g.uuid).isSome
    · simp only [applyRemoveLoop, h, if_pos]
      exact le_trans (ih (groupListRemove cgs g)) (List.length_filter_le _ _)
    · simp only [applyRemoveLoop, h, if_neg, Bool.false_eq_true, not_false_iff]
      exact ih cgs

theorem applyRemoveLoop_length_lt (gs cgs : List Group)
    (h : (applyRemoveLoop gs cgs).2 ≠ []) :
    (applyRemoveLoop gs cgs).1.length < cgs.length := by
  induction gs generalizing cgs with
  | nil => simp [applyRemoveLoop] at h
  | cons g rest ih =>
    by_cases hg : (findByUUID cgs g.uuid).isSome
    · simp only [applyRemoveLoop, hg, if_pos]
      have hlt : (groupListRemove cgs g).length < cgs.length := by
        rw [findByUUID, List.find?_isSome] at hg
        obtain ⟨x, hx, hpx⟩ := hg
        refine List.length_filter_lt_length_iff_exists.mpr ⟨x, hx, ?_⟩
        simp only [bne_iff_ne, ne_eq, Decidable.not_not]
        exact beq_iff_eq.mp hpx
      exact lt_of_le_of_lt (applyRemoveLoop_length_le rest (groupListRemove cgs g)) hlt
    · simp only [applyRemoveLoop, hg, if_neg, Bool.false_eq_true, not_false_iff] at h ⊢
      exact ih cgs h

/-- A remove loop with an empty diff leaves the contact's groups unchanged. -/
theorem applyRemoveLoop_nil_diff (gs cgs : List Group)
    (h : (applyRemoveLoop gs cgs).2 = []) :
    (applyRemoveLoop gs cgs).1 = cgs := by
  induction gs generalizing cgs with
  | nil => simp [applyRemoveLoop]
  | cons g rest ih =>
    by_cases hg : (findByUUID cgs g.uuid).isSome
    · simp only [applyRemoveLoop, hg, if_pos] at h
      exact absurd h (List.cons_ne_nil _ _)
    · simp only [applyRemoveLoop, hg, if_neg, Bool.false_eq_true, not_false_iff] at h ⊢
      exact ih cgs h

theorem findByUUID_isSome_of_remove {cgs : List Group} {u : String} (g : Group)
    (h : (findByUUID (groupListRemove cgs g) u).isSome) :
    (findByUUID cgs u).isSome := by
  rw [findByUUID, List.find?_isSome] at h ⊢
  obtain ⟨x, hx, hpx⟩ := h
  exact ⟨x, List.mem_of_mem_filter hx, hpx⟩

/-- Every group in the remove-loop diff was a member before the call. -/
theorem applyRemoveLoop_diff_mem (gs cgs : List Group) :
    ∀ g ∈ (applyRemoveLoop gs cgs).2, (findByUUID cgs g.uuid).isSome := by
  induction gs generalizing cgs with
  | nil => intro g hg; simp [applyRemoveLoop] at hg
  | cons g rest ih =>
    intro g' hg'
    by_cases h : (findByUUID cgs g.uuid).isSome
    · simp only [applyRemoveLoop, h, if_pos] at hg'
      rcases List.mem_cons.mp hg' with rfl | hmem
      · exact h
      · exact findByUUID_isSome_of_remove g (ih (groupListRemove cgs g) g' hmem)
    · simp only [applyRemoveLoop, h, if_neg, Bool.false_eq_true, not_false_iff] at hg'
      exact ih cgs g' hg'

/-- C8: `GroupsModifier.Apply` with the add modification only adds groups the
contact is not already in, emits a contact-groups-changed event iff membership
actually changed, and is idempotent: a second application of the same modifier
leaves the groups unchanged and emits no event. The symmetric property holds
for the remove modification. -/
theorem groupsModifier_apply_idempotent (gs cgs : List Group) :
    (∀ g ∈ (applyAddLoop gs cgs).2, g ∈ gs ∧ findByUUID cgs g.uuid = none) ∧
    ((GroupsModifier.mk gs .add).apply cgs).1 = cgs ++ (applyAddLoop gs cgs).2 ∧
    (((GroupsModifier.mk gs .add).apply cgs).2 ≠ [] ↔
      ((GroupsModifier.mk gs .add).apply cgs).1 ≠ cgs) ∧
    (GroupsModifier.mk gs .add).apply ((GroupsModifier.mk gs .add).apply cgs).1 =
      (((GroupsModifier.mk gs .add).apply cgs).1, []) ∧
    (∀ g ∈ (applyRemoveLoop gs cgs).2, g ∈ gs ∧ (findByUUID cgs g.uuid).isSome) ∧
    (((GroupsModifier.mk gs .remove).apply cgs).2 ≠ [] ↔
      ((GroupsModifier.mk gs .remove).apply cgs).1 ≠ cgs) ∧
    (GroupsModifier.mk gs .remove).apply ((GroupsModifier.mk gs .remove).apply cgs).1 =
      (((GroupsModifier.mk gs .remove).apply cgs).1, []) := by
  refine ⟨?_, ?_, ?_, ?_, ?_, ?_, ?_⟩
  · exact fun g hg => ⟨applyAddLoop_diff_sub gs cgs g hg, applyAddLoop_diff_new gs cgs g hg⟩
  · simp only [GroupsModifier.apply]
    exact applyAddLoop_eq_append gs cgs
  · simp only [GroupsModifier.apply]
    by_cases hd : (applyAddLoop gs cgs).2 = []
    · have h1 := applyAddLoop_eq_append gs cgs
      rw [hd] at h1
      simp [hd, h1]
    · have hlen : (applyAddLoop gs cgs).2.length > 0 := List.length_pos.mpr hd
      have h1 := applyAddLoop_eq_append gs cgs
      constructor
      · intro _ heq
        rw [heq] at h1
        exact hd (by simpa using h1.symm)
      · intro _
        simp [hlen]
  · simp only [GroupsModifier.apply]
    have hnoop := applyAddLoop_noop gs (applyAddLoop gs cgs).1
      (applyAddLoop_mem_after gs cgs)
    simp [hnoop]
  · exact fun g hg => ⟨applyRemoveLoop_diff_sub gs cgs g hg, applyRemoveLoop_diff_mem gs cgs g hg⟩
  · simp only [GroupsModifier.apply]
    by_cases hd : (applyRemoveLoop gs cgs).2 = []
    · have h1 := applyRemoveLoop_nil_diff gs cgs hd
      simp [hd, h1]
    · have hlen : (applyRemoveLoop gs cgs).2.length > 0 := List.length_pos.mpr hd
      have hlt := applyRemoveLoop_length_lt gs cgs hd
      constructor
      · intro _ heq
        rw [heq] at hlt
        exact lt_irrefl _ hlt
      · intro _
        simp [hlen]
  · simp only [GroupsModifier.apply]
    have hnoop := applyRemoveLoop_noop gs (applyRemoveLoop gs cgs).1
      (applyRemoveLoop_mem_after gs cgs)
    simp [hnoop]

/-- Witness for C8 at a concrete modifier and contact. -/
theorem groupsModifier_apply_idempotent_witness :
    (GroupsModifier.mk [⟨"a"⟩, ⟨"b"⟩] .add).apply
        ((GroupsModifier.mk [⟨"a"⟩, ⟨"b"⟩] .add).apply [⟨"a"⟩]).1 =
      (((GroupsModifier.mk [⟨"a"⟩, ⟨"b"⟩] .add).apply [⟨"a"⟩]).1, []) :=
  (groupsModifier_apply_idempotent [⟨"a"⟩, ⟨"b"⟩] [⟨"a"⟩]).2.2.2.1

/-- C1: two separate group-add events for the same contact targeting groups
`{A}` and `{B}` accumulate to exactly one group-membership-changed hook whose
payload is the union `[A, B]`, with the merge function applied exactly once. -/
theorem hookPipeline_merges_group_adds (c : Nat) (A B : String) (hAB : A ≠ B) :
    accumulateHooks [.groupsAdded c [A], .groupsAdded c [B]] =
      ([(⟨groupMembershipChangedKind, "contact-" ++ toString c⟩, [A, B])], 1) := by
  simp [accumulateHooks, insertHook, eventHook, mergePayload, List.contains,
    beq_iff_eq, hAB, Ne.symm hAB]

/-- Witness for C1 at contact 42 and groups "A", "B". -/
theorem hookPipeline_merges_group_adds_witness :
    "A" ≠ "B" ∧
      accumulateHooks [.groupsAdded 42 ["A"], .groupsAdded 42 ["B"]] =
        ([(⟨groupMembershipChangedKind, "contact-42"⟩, ["A", "B"])], 1) :=
  ⟨by decide, hookPipeline_merges_group_adds 42 "A" "B" (by decide)⟩

example :
    CreateOutgoingMsg sampleOrg (some 1) 2 42 sampleMsgOut = .ok sampleMsg := rfl

/-- C2: a successfully created outgoing message copies the event's text
verbatim; its metadata serializes exactly the quick-reply list when one is
present (two options "yes","no" give `\x7b"quick_replies":["yes","no"]\x7d`)
and is left unpopulated (null) when there are no quick replies. -/
theorem createOutgoingMsg_metadata (org : Org) (topup : Option Nat)
    (ch cid : Nat) (m : MsgOut) (msg : Msg)
    (h : CreateOutgoingMsg org topup ch cid m = .ok msg) :
    msg.text = m.text ∧
    (m.quickReplies ≠ [] → msg.metadata = some (serializeQuickReplies m.quickReplies)) ∧
    (m.quickReplies = [] → msg.metadata = none) ∧
    serializeQuickReplies ["yes", "no"] = "\x7b\"quick_replies\":[\"yes\",\"no\"]\x7d" := by
  have hfields : msg.text = m.text ∧
      msg.metadata = (if m.quickReplies.isEmpty then none
        else some (serializeQuickReplies m.quickReplies)) := by
    cases hu : m.urnID with
    | none => simp [CreateOutgoingMsg, hu] at h
    | some urnID =>
      cases ha : org.isActive with
      | false => simp [CreateOutgoingMsg, hu, ha] at h
      | true =>
        cases ht : topup with
        | some tid =>
          simp only [CreateOutgoingMsg, hu, ha, ht, Except.ok.injEq] at h
          subst h
          exact ⟨rfl, rfl⟩
        | none =>
          cases hp : org.noTopupPolicy with
          | false => simp [CreateOutgoingMsg, hu, ha, ht, hp] at h
          | true =>
            simp only [CreateOutgoingMsg, hu, ha, ht, hp, Except.ok.injEq] at h
            subst h
            exact ⟨rfl, rfl⟩
  refine ⟨hfields.1, ?_, ?_, rfl⟩
  · intro hq
    rw [hfields.2]
    simp [List.isEmpty_iff, hq]
  · intro hq
    rw [hfields.2]
    simp [hq]

/-- Witness for C2 at the sample message with quick replies "yes","no". -/
theorem createOutgoingMsg_metadata_witness :
    sampleMsg.text = sampleMsgOut.text ∧
    (sampleMsgOut.quickReplies ≠ [] →
      sampleMsg.metadata = some (serializeQuickReplies sampleMsgOut.quickReplies)) ∧
    (sampleMsgOut.quickReplies = [] → sampleMsg.metadata = none) ∧
    serializeQuickReplies ["yes", "no"] = "\x7b\"quick_replies\":[\"yes\",\"no\"]\x7d" :=
  createOutgoingMsg_metadata sampleOrg (some 1) 2 42 sampleMsgOut sampleMsg rfl

/-- Counterexample for C3 as stated: inside an active organization under the
explicit no-topup policy, creation succeeds while the created message's topup
reference is null, not valid. -/
theorem createOutgoingMsg_policy_counterexample :
    CreateOutgoingMsg noTopupPolicyOrg none 2 42 plainMsgOut = .ok noTopupMsg ∧
    noTopupPolicyOrg.isActive = true ∧
    noTopupMsg.topupID.isSome = false :=
  ⟨rfl, rfl, rfl⟩

/-- C3 (amended): `CreateOutgoingMsg` fails, persisting nothing, when the
contact's URN carries no resolvable contact-URN id; success requires an
active organization that holds an active topup or the explicit no-topup
policy, and a message created inside an active organization holding an
active topup records that valid topup reference. -/
theorem createOutgoingMsg_urn_and_topup (org : Org) (topup : Option Nat)
    (ch cid : Nat) (m : MsgOut) :
    (m.urnID = none → ∃ e, CreateOutgoingMsg org topup ch cid m = .error e) ∧
    (∀ msg : Msg, CreateOutgoingMsg org topup ch cid m = .ok msg →
      org.isActive = true ∧
      (topup.isSome = true ∨ org.noTopupPolicy = true) ∧
      msg.topupID = topup ∧
      (topup.isSome = true → msg.topupID.isSome = true)) := by
  constructor
  · intro hu
    exact ⟨"cannot create msg for URN without a contact URN id",
      by simp [CreateOutgoingMsg, hu]⟩
  · intro msg h
    cases hu : m.urnID with
    | none => simp [CreateOutgoingMsg, hu] at h
    | some urnID =>
      cases ha : org.isActive with
      | false => simp [CreateOutgoingMsg, hu, ha] at h
      | true =>
        cases ht : topup with
        | some tid =>
          simp only [CreateOutgoingMsg, hu, ha, ht, Except.ok.injEq] at h
          subst h
          exact ⟨rfl, Or.inl rfl, rfl, fun _ => rfl⟩
        | none =>
          cases hp : org.noTopupPolicy with
          | false => simp [CreateOutgoingMsg, hu, ha, ht, hp] at h
          | true =>
            simp only [CreateOutgoingMsg, hu, ha, ht, hp, Except.ok.injEq] at h
            subst h
            refine ⟨rfl, Or.inr rfl, rfl, ?_⟩
            intro hcontra
            exact absurd hcontra (by simp)

/-- Witness for C3 (amended): the URN without a contact-URN id fails; the
sample creation under an active topup succeeds and records it. -/
theorem createOutgoingMsg_urn_and_topup_witness :
    (∃ e, CreateOutgoingMsg sampleOrg (some 1) 2 42 sampleNoURNMsgOut = .error e) ∧
    (sampleOrg.isActive = true ∧
      ((some 1 : Option Nat).isSome = true ∨ sampleOrg.noTopupPolicy = true) ∧
      sampleMsg.topupID = some 1 ∧
      ((some 1 : Option Nat).isSome = true → sampleMsg.topupID.isSome = true)) :=
  ⟨(createOutgoingMsg_urn_and_topup sampleOrg (some 1) 2 42 sampleNoURNMsgOut).1 rfl,
   (createOutgoingMsg_urn_and_topup sampleOrg (some 1) 2 42 sampleMsgOut).2 sampleMsg rfl⟩

/-- C4: an attachment whose URL is a relative path is materialized as a fully
qualified URL on the organization's configured attachment domain, the
media-type part preserved; `image/png:/images/image1.png` on domain
`foo.bar.com` becomes `image/png:https://foo.bar.com/images/image1.png`, and
a created message materializes all its attachments this way. -/
theorem attachment_fully_qualified (domain : String) (a : Attachment)
    (h : isRelativeURL a.url = true) :
    (normalizeAttachment domain a).contentType = a.contentType ∧
    (normalizeAttachment domain a).url = "https://" ++ domain ++ a.url ∧
    normalizeAttachment "foo.bar.com" ⟨"image/png", "/images/image1.png"⟩ =
      ⟨"image/png", "https://foo.bar.com/images/image1.png"⟩ ∧
    (∀ org topup ch cid m msg, CreateOutgoingMsg org topup ch cid m = Except.ok msg →
      msg.attachments = m.attachments.map (normalizeAttachment org.attachmentDomain)) := by
  refine ⟨by simp [normalizeAttachment, h], by simp [normalizeAttachment, h], rfl, ?_⟩
  intro org topup ch cid m msg hmsg
  cases hu : m.urnID with
  | none => simp [CreateOutgoingMsg, hu] at hmsg
  | some urnID =>
    cases ha : org.isActive with
    | false => simp [CreateOutgoingMsg, hu, ha] at hmsg
    | true =>
      cases ht : topup with
      | some tid =>
        simp only [CreateOutgoingMsg, hu, ha, ht, Except.ok.injEq] at hmsg
        subst hmsg
        rfl
      | none =>
        cases hp : org.noTopupPolicy with
        | false => simp [CreateOutgoingMsg, hu, ha, ht, hp] at hmsg
        | true =>
          simp only [CreateOutgoingMsg, hu, ha, ht, hp, Except.ok.injEq] at hmsg
          subst hmsg
          rfl

/-- Witness for C4 at the attachment of the msg-created test. -/
theorem attachment_fully_qualified_witness :
    isRelativeURL "/images/image1.png" = true ∧
    (normalizeAttachment "foo.bar.com" ⟨"image/png", "/images/image1.png"⟩).contentType =
      "image/png" ∧
    (normalizeAttachment "foo.bar.com" ⟨"image/png", "/images/image1.png"⟩).url =
      "https://" ++ "foo.bar.com" ++ "/images/image1.png" :=
  ⟨rfl,
   (attachment_fully_qualified "foo.bar.com" ⟨"image/png", "/images/image1.png"⟩ rfl).1,
   (attachment_fully_qualified "foo.bar.com" ⟨"image/png", "/images/image1.png"⟩ rfl).2.1⟩

/-- C5: processing the import batch `[Norbert (eng), Leah]` on an empty
contact table completes with 2 successes and 0 failures, leaving exactly one
contact named "Norbert" with language "eng" and exactly one contact named
"Leah" with no language set. -/
theorem importContactBatch_scenario :
    (ImportContactBatch [] [norbertSpec, leahSpec]).2.1 = 2 ∧
    (ImportContactBatch [] [norbertSpec, leahSpec]).2.2 = 0 ∧
    ((ImportContactBatch [] [norbertSpec, leahSpec]).1.filter
        (fun c => c.name == some "Norbert" && c.language == some "eng")).length = 1 ∧
    ((ImportContactBatch [] [norbertSpec, leahSpec]).1.filter
        (fun c => c.name == some "Leah" && c.language == none)).length = 1 := by
  refine ⟨rfl, rfl, rfl, rfl⟩

/-- C6: every node returned by a location lookup lies within the parent's
subtree at the requested level and matches the query case-insensitively by
name or by an alias of the loading organization — an alias row of another
organization never contributes a match. -/
theorem findByName_sound (rows : List BoundaryAlias) (orgID : Nat)
    (parent : Location) (parentLevel level : Nat) (q : String) (l : Location)
    (h : l ∈ FindByName rows orgID parent parentLevel level q) :
    l ∈ nodesAtDepth parent (level - parentLevel) ∧
    (lowerStr l.name = lowerStr q ∨
      ∃ r ∈ rows, r.orgID = orgID ∧ r.boundaryID = l.boundaryID ∧
        lowerStr r.name = lowerStr q) := by
  rw [FindByName] at h
  split at h
  · simp at h
  · refine ⟨List.mem_of_mem_filter h, ?_⟩
    have hp := List.of_mem_filter h
    rw [locationMatches, Bool.or_eq_true] at hp
    rcases hp with hp | hp
    · exact Or.inl (beq_iff_eq.mp hp)
    · right
      rw [List.any_eq_true] at hp
      obtain ⟨a, ha, hq⟩ := hp
      rw [aliasesFor] at ha
      simp only [List.mem_map] at ha
      obtain ⟨r, hr, rfl⟩ := ha
      have hflt := List.of_mem_filter hr
      simp only [Bool.and_eq_true, beq_iff_eq] at hflt
      exact ⟨r, List.mem_of_mem_filter hr, hflt.1, hflt.2, beq_iff_eq.mp hq⟩

/-- Witness for C6: looking up "soko" at level 1 under Nigeria for org 1
returns Sokoto, found within the subtree via org 1's alias "Soko". -/
theorem findByName_sound_witness :
    sokotoLoc ∈ FindByName sampleAliasRows 1 nigeriaLoc 0 1 "soko" ∧
    (sokotoLoc ∈ nodesAtDepth nigeriaLoc (1 - 0) ∧
      (lowerStr sokotoLoc.name = lowerStr "soko" ∨
        ∃ r ∈ sampleAliasRows, r.orgID = 1 ∧ r.boundaryID = sokotoLoc.boundaryID ∧
          lowerStr r.name = lowerStr "soko")) := by
  have heq : FindByName sampleAliasRows 1 nigeriaLoc 0 1 "soko" = [sokotoLoc] := rfl
  have hmem : sokotoLoc ∈ FindByName sampleAliasRows 1 nigeriaLoc 0 1 "soko" := by
    rw [heq]
    exact List.mem_singleton.mpr rfl
  exact ⟨hmem, findByName_sound sampleAliasRows 1 nigeriaLoc 0 1 "soko" sokotoLoc hmem⟩

/-! Lemmas about the URL order and sorted-set insertion. -/

theorem lexLt_irrefl (as : List Char) : lexLt as as = false := by
  induction as with
  | nil => rfl
  | cons a rest ih => simp [lexLt, ih]

theorem lexLt_trans {as bs cs : List Char} (h1 : lexLt as bs = true)
    (h2 : lexLt bs cs = true) : lexLt as cs = true := by
  induction as generalizing bs cs with
  | nil =>
    cases bs with
    | nil => simp [lexLt] at h1
    | cons b bs' =>
      cases cs with
      | nil => simp [lexLt] at h2
      | cons c cs' => simp [lexLt]
  | cons a as' ih =>
    cases bs with
    | nil => simp [lexLt] at h1
    | cons b bs' =>
      cases cs with
      | nil => simp [lexLt] at h2
      | cons c cs' =>
        simp only [lexLt] at h1 h2 ⊢
        by_cases hab : a < b
        · by_cases hbc : b < c
          · simp [lt_trans hab hbc]
          · by_cases hcb : c < b
            · simp [hbc, hcb] at h2
            · have heq : b = c := le_antisymm (not_lt.mp hcb) (not_lt.mp hbc)
              subst heq
              simp [hab]
        · by_cases hba : b < a
          · simp [hab, hba] at h1
          · have heq : a = b := le_antisymm (not_lt.mp hba) (not_lt.mp hab)
            subst heq
            simp only [lt_irrefl, if_neg, not_false_iff, if_false] at h1
            by_cases hac : a < c
            · simp [hac]
            · by_cases hca : c < a
              · simp [hac, hca] at h2
              · have heq : a = c := le_antisymm (not_lt.mp hca) (not_lt.mp hac)
                subst heq
                simp only [lt_irrefl, if_neg, not_false_iff, if_false] at h2 ⊢
                exact ih h1 h2

theorem lexLt_eq_of_not {as bs : List Char} (h1 : lexLt as bs = false)
    (h2 : lexLt bs as = false) : as = bs := by
  induction as generalizing bs with
  | nil =>
    cases bs with
    | nil => rfl
    | cons b bs' => simp [lexLt] at h1
  | cons a as' ih =>
    cases bs with
    | nil => simp [lexLt] at h2
    | cons b bs' =>
      simp only [lexLt] at h1 h2
      by_cases hab : a < b
      · simp [hab] at h1
      · by_cases hba : b < a
        · simp [hab, hba] at h2
        · have heq : a = b := le_antisymm (not_lt.mp hba) (not_lt.mp hab)
          subst heq
          simp only [lt_irrefl, if_neg, not_false_iff, if_false] at h1 h2
          rw [ih h1 h2]

theorem strLt_irrefl (a : String) : strLt a a = false :=
  lexLt_irrefl a.data

theorem strLt_trans {a b c : String} (h1 : strLt a b = true)
    (h2 : strLt b c = true) : strLt a c = true :=
  lexLt_trans h1 h2

theorem strLt_eq_of_not {a b : String} (h1 : strLt a b = false)
    (h2 : strLt b a = false) : a = b := by
  cases a with
  | mk as =>
    cases b with
    | mk bs =>
      have heq : as = bs := @lexLt_eq_of_not as bs h1 h2
      rw [heq]

theorem mem_insertURL {x u : String} {l : List String} :
    x ∈ insertURL u l ↔ x = u ∨ x ∈ l := by
  induction l with
  | nil => simp [insertURL]
  | cons v rest ih =>
    simp only [insertURL]
    by_cases h1 : strLt u v = true
    · rw [if_pos h1]
      simp only [List.mem_cons]
    · by_cases h2 : strLt v u = true
      · rw [if_neg h1, if_pos h2]
        simp only [List.mem_cons, ih]
        tauto
      · have hf1 : strLt u v = false := Bool.eq_false_iff.mpr h1
        have hf2 : strLt v u = false := Bool.eq_false_iff.mpr h2
        have heq : u = v := strLt_eq_of_not hf1 hf2
        subst heq
        rw [if_neg h1, if_neg h2]
        simp only [List.mem_cons]
        tauto

theorem pairwise_insertURL {u : String} {l : List String}
    (hs : l.Pairwise (fun a b => strLt a b = true)) :
    (insertURL u l).Pairwise (fun a b => strLt a b = true) := by
  induction l with
  | nil => simp [insertURL]
  | cons v rest ih =>
    rcases List.pairwise_cons.mp hs with ⟨hv, hrest⟩
    simp only [insertURL]
    by_cases h1 : strLt u v = true
    · rw [if_pos h1]
      refine List.pairwise_cons.mpr ⟨?_, hs⟩
      intro b hb
      rcases List.mem_cons.mp hb with rfl | hb'
      · exact h1
      · exact strLt_trans h1 (hv b hb')
    · by_cases h2 : strLt v u = true
      · rw [if_neg h1, if_pos h2]
        refine List.pairwise_cons.mpr ⟨?_, ih hrest⟩
        intro b hb
        rcases mem_insertURL.mp hb with rfl | hb'
        · exact h2
        · exact hv b hb'
      · rw [if_neg h1, if_neg h2]
        exact hs

theorem pairwise_foldr_insertURL (urls : List String) :
    (urls.foldr insertURL []).Pairwise (fun a b => strLt a b = true) := by
  induction urls with
  | nil => simp
  | cons u rest ih => exact pairwise_insertURL ih

theorem mem_foldr_insertURL {x : String} (urls : List String) :
    x ∈ urls.foldr insertURL [] ↔ x ∈ urls := by
  induction urls with
  | nil => simp
  | cons u rest ih =>
    simp only [List.foldr_cons, mem_insertURL, ih, List.mem_cons]

/-- C7: the loaded subscriber set of a resthook is strictly ordered by URL,
deduplicated, contains exactly the target URLs of that resthook's subscriber
rows, and is empty when the resthook has no subscriber rows. -/
theorem resthook_subscribers_sorted_set (rows : List (Nat × String)) (rid : Nat) :
    (loadResthookSubscribers rows rid).Pairwise (fun a b => strLt a b = true) ∧
    (loadResthookSubscribers rows rid).Nodup ∧
    (∀ u, u ∈ loadResthookSubscribers rows rid ↔ (rid, u) ∈ rows) ∧
    ((∀ r ∈ rows, r.1 ≠ rid) → loadResthookSubscribers rows rid = []) := by
  have hpw := pairwise_foldr_insertURL
    ((rows.filter (fun r => r.1 == rid)).map (fun r => r.2))
  refine ⟨hpw, ?_, ?_, ?_⟩
  · exact List.Pairwise.imp
      (fun h heq => by
        subst heq
        rw [strLt_irrefl] at h
        exact Bool.noConfusion h)
      hpw
  · intro u
    rw [loadResthookSubscribers, mem_foldr_insertURL]
    constructor
    · intro hu
      simp only [List.mem_map] at hu
      obtain ⟨r, hr, rfl⟩ := hu
      have h1 : r.1 = rid := by simpa using List.of_mem_filter hr
      have hrr : r = (rid, r.2) := by
        cases r
        simpa using h1
      rw [← hrr]
      exact List.mem_of_mem_filter hr
    · intro hu
      refine List.mem_map.mpr ⟨(rid, u), ?_, rfl⟩
      exact List.mem_filter.mpr ⟨hu, by simp⟩
  · intro hnone
    have hfe : rows.filter (fun r => r.1 == rid) = [] := by
      rw [List.filter_eq_nil_iff]
      intro r hr
      simp [hnone r hr]
    rw [loadResthookSubscribers, hfe]
    rfl

/-- Witness for C7 at the resthook-test subscriber rows. -/
theorem resthook_subscribers_sorted_set_witness :
    (loadResthookSubscribers sampleSubscriberRows 2).Pairwise
        (fun a b => strLt a b = true) ∧
    (loadResthookSubscribers sampleSubscriberRows 2).Nodup ∧
    (∀ u, u ∈ loadResthookSubscribers sampleSubscriberRows 2 ↔
        (2, u) ∈ sampleSubscriberRows) ∧
    ((∀ r ∈ sampleSubscriberRows, r.1 ≠ 2) →
        loadResthookSubscribers sampleSubscriberRows 2 = []) :=
  resthook_subscribers_sorted_set sampleSubscriberRows 2

example :
    loadResthookSubscribers sampleSubscriberRows 2 =
      ["https://bar.foo", "https://foo.bar"] := by decide

example : loadResthookSubscribers sampleSubscriberRows 1 = [] := rfl

/-- C9: `loadActiveTopup` never fails: it returns a null id exactly when the
organization has no topup with remaining credits, and a returned id always
belongs to one of the organization's topups with remaining credits. -/
theorem loadActiveTopup_total (topups : List Topup) (orgID : Nat) :
    (∃ v, loadActiveTopup topups orgID = .ok v) ∧
    (loadActiveTopup topups orgID = .ok none ↔
      ∀ t ∈ topups, ¬(t.orgID = orgID ∧ t.used < t.credits)) ∧
    (∀ i, loadActiveTopup topups orgID = .ok (some i) →
      ∃ t ∈ topups, t.orgID = orgID ∧ t.used < t.credits ∧ t.id = i) := by
  refine ⟨⟨_, rfl⟩, ?_, ?_⟩
  · rw [loadActiveTopup]
    simp only [Except.ok.injEq, Option.map_eq_none', List.find?_eq_none,
      Bool.and_eq_true, beq_iff_eq, decide_eq_true_eq, not_and]
  · intro i h
    rw [loadActiveTopup] at h
    simp only [Except.ok.injEq, Option.map_eq_some'] at h
    obtain ⟨t, hfind, hid⟩ := h
    have hmem := List.mem_of_find?_eq_some hfind
    have hp := List.find?_some hfind
    simp only [Bool.and_eq_true, beq_iff_eq, decide_eq_true_eq] at hp
    exact ⟨t, hmem, hp.1, hp.2, hid⟩

/-- Witness for C9 at the topup fixture: org 3's only topup is exhausted. -/
theorem loadActiveTopup_total_witness :
    (∃ v, loadActiveTopup sampleTopups 3 = .ok v) ∧
    (loadActiveTopup sampleTopups 3 = .ok none ↔
      ∀ t ∈ sampleTopups, ¬(t.orgID = 3 ∧ t.used < t.credits)) ∧
    (∀ i, loadActiveTopup sampleTopups 3 = .ok (some i) →
      ∃ t ∈ sampleTopups, t.orgID = 3 ∧ t.used < t.credits ∧ t.id = i) :=
  loadActiveTopup_total sampleTopups 3

example : loadActiveTopup sampleTopups 1 = .ok (some 1) := rfl

example : loadActiveTopup sampleTopups 3 = .ok none := rfl

/-- C10: for every request, when the handler panics `panicRecovery` responds
HTTP 500 Internal Server Error instead of propagating the panic, and when the
handler does not panic its response passes through unchanged. -/
theorem panicRecovery_recovers {α : Type} (next : α → HandlerOutcome) (r : α) :
    (∀ m, next r = .panicked m →
      panicRecovery next r = ⟨500, "Internal Server Error"⟩) ∧
    (∀ resp, next r = .ok resp → panicRecovery next r = resp) := by
  constructor
  · intro m hm
    unfold panicRecovery
    rw [hm]
    rfl
  · intro resp hresp
    unfold panicRecovery
    rw [hresp]

/-- Witness for C10: a panicking handler yields 500, a normal handler's
response is unchanged. -/
theorem panicRecovery_recovers_witness :
    panicRecovery panickingHandler 0 = ⟨500, "Internal Server Error"⟩ ∧
    panicRecovery okHandler 0 = ⟨200, "ok"⟩ :=
  ⟨(panicRecovery_recovers panickingHandler 0).1 "boom" rfl,
   (panicRecovery_recovers okHandler 0).2 ⟨200, "ok"⟩ rfl⟩

end Mailroom
